import Mathlib

/-!
Verification of the L2 streaming session engine against its source.

The definitions below are a shallow embedding of the Go sources:
  * `ui/components.go`   — session state machine, render throttle,
    context condenser, token-stream receive loop;
  * `storage/storage.go` — file-backed persistence store;
  * `tools` (lexicon)    — `AddLexiconEntry`.

Machine strings are Lean `String`s, Go slices are Lean `List`s, JSON
(de)serialisation (`encoding/json`) is modelled on a JSON value AST, and the
file system is modelled explicitly (home directory, working directory, the set
of existing directories, and a file map), so that the `os.MkdirAll` /
`os.WriteFile` behaviour of the storage layer is represented faithfully.
-/

namespace L2

/-! ## Data model: messages (eino `schema.Message` restricted to the fields the
program reads and writes: role, content, tool calls). -/

/-- One tool call attached to a message: function name and raw arguments. -/
structure ToolCall where
  name : String
  arguments : String
deriving DecidableEq, Repr

/-- One conversation turn (`schema.Message`): role, content, tool calls. -/
structure Message where
  role : String
  content : String
  toolCalls : List ToolCall
deriving DecidableEq, Repr

/-- `schema.UserMessage` -/
def userMessage (s : String) : Message := ⟨"user", s, []⟩

/-- `schema.AssistantMessage(s, nil)` -/
def assistantMessage (s : String) : Message := ⟨"assistant", s, []⟩

/-- `schema.SystemMessage` -/
def systemMessage (s : String) : Message := ⟨"system", s, []⟩

/-! ## JSON values and the codecs used by `encoding/json` on the
program's record types. -/

/-- A JSON value. Whitespace/indentation is irrelevant at this level, so
`json.Marshal` and `json.MarshalIndent` coincide. -/
inductive Json where
  | null
  | str (s : String)
  | num (n : Int)
  | arr (elems : List Json)
  | obj (fields : List (String × Json))
deriving Repr

/-- Look up an object field by key (first match). -/
def getField : List (String × Json) → String → Option Json
  | [], _ => none
  | (k, v) :: rest, key => if k = key then some v else getField rest key

/-- Decoding a string-typed struct field: a missing key yields the zero value
`""` (Go `json.Unmarshal` semantics); a present non-string value is an error. -/
def decodeStrField (fields : List (String × Json)) (key : String) : Option String :=
  match getField fields key with
  | none => some ""
  | some (Json.str s) => some s
  | some _ => none

/-- Element-wise decoding of a JSON array: every element must decode. -/
def decodeAll {α : Type} (f : Json → Option α) : List Json → Option (List α)
  | [] => some []
  | j :: rest =>
    match f j, decodeAll f rest with
    | some a, some as => some (a :: as)
    | _, _ => none

def encodeToolCall (tc : ToolCall) : Json :=
  Json.obj [("name", Json.str tc.name), ("arguments", Json.str tc.arguments)]

def decodeToolCall : Json → Option ToolCall
  | Json.obj fields =>
    match decodeStrField fields "name", decodeStrField fields "arguments" with
    | some n, some a => some ⟨n, a⟩
    | _, _ => none
  | _ => none

/-- Marshal a message. The `tool_calls` slice is omitted when empty
(`omitempty`). -/
def encodeMessage (m : Message) : Json :=
  Json.obj ([("role", Json.str m.role), ("content", Json.str m.content)] ++
    (if m.toolCalls = [] then []
     else [("tool_calls", Json.arr (m.toolCalls.map encodeToolCall))]))

/-- Decoding the `tool_calls` field: absent or `null` yields the zero value
(nil slice); a present non-array value is an error. -/
def decodeToolCalls (fields : List (String × Json)) : Option (List ToolCall) :=
  match getField fields "tool_calls" with
  | none => some []
  | some Json.null => some []
  | some (Json.arr xs) => decodeAll decodeToolCall xs
  | some _ => none

def decodeMessage : Json → Option Message
  | Json.obj fields =>
    match decodeStrField fields "role", decodeStrField fields "content",
          decodeToolCalls fields with
    | some r, some c, some tcs => some ⟨r, c, tcs⟩
    | _, _, _ => none
  | _ => none

/-- `json.Marshal(history)` for `[]*schema.Message`. -/
def encodeConversation (h : List Message) : Json :=
  Json.arr (h.map encodeMessage)

/-- `json.Unmarshal` into `[]*schema.Message`. -/
def decodeConversation : Json → Option (List Message)
  | Json.arr xs => decodeAll decodeMessage xs
  | _ => none

/-- `json.Marshal` of `storage.Stats`. -/
def encodeStats (n : Int) : Json :=
  Json.obj [("total_tokens", Json.num n)]

/-- `json.Unmarshal` into `storage.Stats`: a missing `total_tokens` key yields
the zero value; a non-number value or a non-object document is an error. -/
def decodeStats : Json → Option Int
  | Json.obj fields =>
    match getField fields "total_tokens" with
    | none => some 0
    | some (Json.num n) => some n
    | some _ => none
  | _ => none

/-! ### Round-trip lemmas for the codecs -/

theorem decodeToolCall_encodeToolCall (tc : ToolCall) :
    decodeToolCall (encodeToolCall tc) = some tc := by
  obtain ⟨n, a⟩ := tc
  simp [encodeToolCall, decodeToolCall, decodeStrField, getField]

theorem decodeAll_decodeToolCall_encodeToolCall (tcs : List ToolCall) :
    decodeAll decodeToolCall (tcs.map encodeToolCall) = some tcs := by
  induction tcs with
  | nil => rfl
  | cons t ts ih =>
    simp [decodeAll, decodeToolCall_encodeToolCall, ih]

theorem decodeMessage_encodeMessage (m : Message) :
    decodeMessage (encodeMessage m) = some m := by
  obtain ⟨r, c, tcs⟩ := m
  by_cases h : tcs = []
  · subst h
    simp [encodeMessage, decodeMessage, decodeStrField, decodeToolCalls, getField]
  · simp [encodeMessage, decodeMessage, decodeStrField, decodeToolCalls, getField, h,
      decodeAll_decodeToolCall_encodeToolCall]

theorem decodeConversation_encodeConversation (h : List Message) :
    decodeConversation (encodeConversation h) = some h := by
  induction h with
  | nil => rfl
  | cons m ms ih =>
    simp only [encodeConversation, decodeConversation, List.map_cons, decodeAll,
      decodeMessage_encodeMessage] at *
    simp [ih]

/-! ## Persistence store (`storage/storage.go`)

Paths are lists of components. The file system records the user's home
directory, the process working directory, the set of directories that exist,
and a map from absolute paths to file contents. `os.WriteFile` fails when the
parent directory of the target does not exist; `os.MkdirAll` creates a
directory and all its ancestors and is idempotent. Relative paths (as passed
to `os.MkdirAll` by `WriteConversation`/`WriteStats`) resolve against the
working directory. -/

/-- File contents: well-formed JSON, or raw (possibly malformed) text. -/
inductive Bytes where
  | json (j : Json)
  | raw (s : String)
deriving Repr

/-- An absolute or relative path, as a list of components. -/
abbrev FilePath' := List String

/-- The modelled file system. -/
structure FS where
  home : FilePath'
  cwd : FilePath'
  dirs : List FilePath'
  files : List (FilePath' × Bytes)

/-- The `pathMap` constants of `storage.go`, as relative component lists. -/
inductive FileId where
  | system | conversation | stats | data
deriving DecidableEq, Repr

def pathMapComponents : FileId → FilePath'
  | .system => ["system.md"]
  | .conversation => ["conversations", "conversation.json"]
  | .stats => ["stats.json"]
  | .data => ["data"]

/-- `GetPath`: `$HOME/l2/<pathMap[file]>`. -/
def getPath (fs : FS) (f : FileId) : FilePath' :=
  fs.home ++ ["l2"] ++ pathMapComponents f

/-- `filepath.Dir` on a component list (`Dir "stats.json" = "."` becomes `[]`). -/
def dirOf (p : FilePath') : FilePath' := p.dropLast

/-- Does directory `p` exist? -/
def dirExists (fs : FS) (p : FilePath') : Bool := fs.dirs.contains p

/-- `os.MkdirAll`: create `p` and all its ancestors; idempotent. -/
def mkdirAll (fs : FS) (p : FilePath') : FS :=
  { fs with dirs := fs.dirs ++ (List.range (p.length + 1)).map (fun n => p.take n) }

def lookupFile : List (FilePath' × Bytes) → FilePath' → Option Bytes
  | [], _ => none
  | (q, b) :: rest, p => if q = p then some b else lookupFile rest p

/-- `os.WriteFile`: fails (returns `none`) when the parent directory of the
target is missing; otherwise records the new contents. -/
def writeFileOS (fs : FS) (p : FilePath') (b : Bytes) : Option FS :=
  if dirExists fs (dirOf p) then some { fs with files := (p, b) :: fs.files } else none

/-- `CheckFile`: `os.Stat` succeeds exactly when the path exists. -/
def checkFile (fs : FS) (f : FileId) : Bool :=
  (lookupFile fs.files (getPath fs f)).isSome

/-- `ReadFile`: existence check, then read. -/
def readFileStorage (fs : FS) (f : FileId) : Option Bytes :=
  if checkFile fs f then lookupFile fs.files (getPath fs f) else none

/-- `WriteFile`: plain `os.WriteFile` at `GetPath file` (no directory creation). -/
def writeFileStorage (fs : FS) (f : FileId) (b : Bytes) : Option FS :=
  writeFileOS fs (getPath fs f) b

/-- `ReadConversation`: read the conversation record and unmarshal it. -/
def readConversation (fs : FS) : Option (List Message) :=
  match readFileStorage fs FileId.conversation with
  | some (Bytes.json j) => decodeConversation j
  | some (Bytes.raw _) => none
  | none => none

/-- `WriteConversation`: when the record does not yet exist it calls
`os.MkdirAll(filepath.Dir(pathMap[ConversationFile]), 0755)` — note that
`pathMap[ConversationFile]` is the *relative* constant
`"conversations/conversation.json"`, so the directory created is
`./conversations` under the working directory — then marshals and writes. -/
def writeConversation (fs : FS) (h : List Message) : Option FS :=
  let fs' := if checkFile fs FileId.conversation then fs
             else mkdirAll fs (fs.cwd ++ dirOf (pathMapComponents FileId.conversation))
  writeFileStorage fs' FileId.conversation (Bytes.json (encodeConversation h))

/-- `ReadStats`: read the stats record and unmarshal it (`none` = the error
return, on which every caller falls back to `Stats{TotalTokens: 0}`). -/
def readStats (fs : FS) : Option Int :=
  match readFileStorage fs FileId.stats with
  | some (Bytes.json j) => decodeStats j
  | some (Bytes.raw _) => none
  | none => none

/-- `WriteStats`: mirror image of `WriteConversation`;
`filepath.Dir("stats.json") = "."`, so its `MkdirAll` is a no-op on the
working directory. -/
def writeStats (fs : FS) (n : Int) : Option FS :=
  let fs' := if checkFile fs FileId.stats then fs
             else mkdirAll fs (fs.cwd ++ dirOf (pathMapComponents FileId.stats))
  writeFileStorage fs' FileId.stats (Bytes.json (encodeStats n))

/-- `WriteDataFile`: `MkdirAll(filepath.Dir(Path))` where `Path` is the data
*root* `$HOME/l2/data` — i.e. it creates `$HOME/l2`, not the data directory —
then joins the file name and writes. -/
def writeDataFile (fs : FS) (name : String) (b : Bytes) : Option FS :=
  let root := getPath fs FileId.data
  let fs' := mkdirAll fs (dirOf root)
  writeFileOS fs' (root ++ [name]) b

/-- `ReadDataFile`: plain `os.ReadFile` under the data root. -/
def readDataFile (fs : FS) (name : String) : Option Bytes :=
  lookupFile fs.files (getPath fs FileId.data ++ [name])

/-! ## UI session model (`ui/components.go`)

The `Model` fields relevant to the session state machine. Durations are in
milliseconds, times are abstract (only the reset-to-zero of
`lastRenderTime` matters to the claims). The viewport, textarea and glamour
renderer are visual plumbing and are represented by the emitted render
effects instead. -/

structure Model where
  history : List Message
  streaming : Bool
  currentResponse : String
  stats : Int
  maxHistoryDisplay : Nat
  maxResponseLength : Nat
  renderBuffer : Nat
  renderThrottle : Nat
  lastRenderTime : Nat
deriving DecidableEq, Repr

/-- Observable side effects of one `Update` step. `flushForced` is the direct
`updateViewportContentInternal` call that bypasses the throttle check;
`flushAttempt` is a throttled `updateViewportContent` call. -/
inductive Effect where
  | flushForced
  | flushAttempt
  | persistConversation (h : List Message)
  | startStream (userMessage : String)
deriving DecidableEq, Repr

/-- What the non-blocking `select` on the token channel sees on a tick:
the channel is closed (and drained), a token is available, or it is empty. -/
inductive Poll where
  | closed
  | token (s : String)
  | empty
deriving DecidableEq, Repr

/-- The `renderThrottle` escalation of `adjustOptimizationParams`, as a
function of `currentResponse.Len()` (UTF-8 byte length). -/
def adjustThrottle (len : Nat) : Nat :=
  if len > 10000 then 200 else if len > 5000 then 150 else 100

/-- `adjustOptimizationParams`. -/
def adjustOptimizationParams (m : Model) : Model :=
  { m with renderThrottle := adjustThrottle m.currentResponse.utf8ByteSize,
           maxResponseLength := 0 }

/-- `cleanupLongResponse` — disabled in the source: no truncation. -/
def cleanupLongResponse (m : Model) : Model := m

/-- `resetOptimizationParams`. -/
def resetOptimizationParams (m : Model) : Model :=
  { m with maxHistoryDisplay := 10, maxResponseLength := 0,
           renderBuffer := 5, renderThrottle := 100 }

/-- `Update` on `tickMsg`, with the channel poll outcome made explicit. -/
def tickStep (m : Model) (p : Poll) : Model × List Effect :=
  if m.streaming then
    match p with
    | Poll.closed =>
      let m₁ := { m with streaming := false,
                         history := m.history ++ [assistantMessage m.currentResponse] }
      let m₂ := { resetOptimizationParams m₁ with lastRenderTime := 0 }
      (m₂, [Effect.flushForced, Effect.persistConversation m₂.history])
    | Poll.token s =>
      let m₁ := { m with currentResponse := m.currentResponse ++ s }
      let m₂ := cleanupLongResponse (adjustOptimizationParams m₁)
      (m₂, [Effect.flushAttempt])
    | Poll.empty => (m, [])
  else (m, [])

/-- `Update` on `tea.KeyEnter`, with the textarea value passed as `input`. -/
def enterStep (m : Model) (input : String) : Model × List Effect :=
  if m.streaming then (m, [])
  else if input = "" then (m, [])
  else
    let m₁ := { m with history := m.history ++ [userMessage input] }
    let m₂ := { m₁ with streaming := true, currentResponse := "" }
    (m₂, [Effect.flushAttempt, Effect.startStream input])

/-- Iterated token-delivery ticks. -/
def runTokens (m : Model) (ts : List String) : Model :=
  ts.foldl (fun m s => (tickStep m (Poll.token s)).1) m

/-! ## Token stream pump: the receive goroutine of `startStreaming`.

Each chunk received from `response.Recv()` is a slice of messages; the code
acts on `msg[0]` when the slice is non-empty, so a chunk is modelled as
`Option Message` (`none` = empty slice). For each non-empty chunk the
goroutine forwards one `[Tool Call: …]` marker per tool call, then the
content when non-empty, and increments `stats.TotalTokens` by one. -/

/-- The fragments the goroutine pushes on the token channel for one chunk. -/
def emitFragments (m : Message) : List String :=
  (m.toolCalls.map (fun tc => "\n[Tool Call: " ++ tc.name ++ "]\n")) ++
    (if m.content = "" then [] else [m.content])

/-- The receive loop: returns the final counter value and the pushed
fragments, in order. -/
def receiveLoop (tokens : Int) : List (Option Message) → Int × List String
  | [] => (tokens, [])
  | none :: rest => receiveLoop tokens rest
  | some msg :: rest =>
    let r := receiveLoop (tokens + 1) rest
    (r.1, emitFragments msg ++ r.2)

/-- The number of text-bearing fragments a chunk sequence delivers: one per
non-empty chunk whose content is non-empty (the spec's unit of accounting). -/
def textFragmentCount (chunks : List (Option Message)) : Nat :=
  (chunks.filterMap id).countP (fun m => m.content ≠ "")

/-- The number of non-empty chunks (the code's actual unit of accounting). -/
def chunkCount (chunks : List (Option Message)) : Nat :=
  chunks.countP (fun c => c.isSome)

/-! ## Context condenser (`createCondensedHistory` and helpers).

The backend summarization call `m.llm.Invoke` is an external collaborator; its
outcome is passed as a parameter: `some s` = it returned a message with
content `s`, `none` = it returned an error. -/

/-- Does `pat` occur inside `l`? (`strings.Contains` on char lists.) -/
def listHasInside (pat : List Char) : List Char → Bool
  | [] => pat.isPrefixOf []
  | c :: rest => pat.isPrefixOf (c :: rest) || listHasInside pat rest

/-- `strings.Contains s "[Tool Call:"`. -/
def containsToolCall (s : String) : Bool :=
  listHasInside "[Tool Call:".toList s.toList

/-- `strings.ReplaceAll` on char lists, fuelled by the remaining length so the
recursion is structural (the fuel never runs out: each step consumes at least
one character). -/
def replaceFuel (pat rep : List Char) : Nat → List Char → List Char
  | _, [] => []
  | 0, l => l
  | fuel + 1, c :: rest =>
    if pat.isPrefixOf (c :: rest) then
      rep ++ replaceFuel pat rep fuel (List.drop (pat.length - 1) rest)
    else
      c :: replaceFuel pat rep fuel rest

/-- `strings.ReplaceAll s pat rep` (for the non-empty patterns used here). -/
def replaceAll (s pat rep : String) : String :=
  ⟨replaceFuel pat.toList rep.toList s.toList.length s.toList⟩

/-- The role label of `formatExistingContext`. -/
def formatRole (m : Message) : String :=
  if m.role = "assistant" then "Assistant" else "User"

/-- The per-message content transformation of `formatExistingContext`:
tool-call markers get visually bracketed with `**`. -/
def formatContent (s : String) : String :=
  if containsToolCall s then
    replaceAll (replaceAll s "[Tool Call:" "**[Tool Call:") "]" "]**"
  else s

/-- One `fmt.Sprintf("**%s:** %s\n\n", role, content)` block. -/
def formatBlock (m : Message) : String :=
  "**" ++ formatRole m ++ ":** " ++ formatContent m.content ++ "\n\n"

/-- The loop body of `formatExistingContext`. -/
def formatBlocks : List Message → String
  | [] => ""
  | m :: rest => formatBlock m ++ formatBlocks rest

/-- `formatExistingContext`. -/
def formatExistingContext (messages : List Message) : String :=
  if messages = [] then "No previous conversation"
  else
    let msgs := if messages.length > 10 then messages.drop (messages.length - 10)
                else messages
    "Previous conversation includes:\n\n" ++ formatBlocks msgs

/-- `generateContextSummary`, with the backend outcome as a parameter: on
error it falls back to `formatExistingContext(messages[len(messages)-5:])`. -/
def generateContextSummary (summary : Option String) (messages : List Message) : String :=
  match summary with
  | some s => s
  | none => formatExistingContext (messages.drop (messages.length - 5))

/-- `"user"`/`"assistant"` filter of `createCondensedHistory`. -/
def isUserOrAssistant (m : Message) : Bool :=
  m.role == "user" || m.role == "assistant"

/-- `createCondensedHistory`. -/
def createCondensedHistory (summary : Option String) (history : List Message) :
    List Message :=
  let userMessages := history.filter isUserOrAssistant
  let contextMessage :=
    if userMessages.length > 10 then
      "CONTEXT: " ++ generateContextSummary summary
        (userMessages.take (userMessages.length - 1))
    else if userMessages.length > 0 then
      "CONTEXT: " ++ formatExistingContext userMessages
    else
      "CONTEXT: No previous conversation"
  [systemMessage contextMessage]

/-! ## Startup (`NewModel`) -/

/-- The history `NewModel` starts with: absent record → empty; read or parse
failure → empty. -/
def initHistory (fs : FS) : List Message :=
  if checkFile fs FileId.conversation then
    match readConversation fs with
    | some h => h
    | none => []
  else []

/-- The stats `NewModel` starts with: any `ReadStats` failure → 0. -/
def initStats (fs : FS) : Int :=
  match readStats fs with
  | some s => s
  | none => 0

/-- `NewModel` (session-relevant fields). -/
def newModel (fs : FS) : Model :=
  { history := initHistory fs, streaming := false, currentResponse := "",
    stats := initStats fs, maxHistoryDisplay := 10, maxResponseLength := 0,
    renderBuffer := 5, renderThrottle := 100, lastRenderTime := 0 }

/-! ## Helper lemmas about the session state machine -/

theorem tickStep_token_fields (m : Model) (s : String) (h : m.streaming = true) :
    (tickStep m (Poll.token s)).1.history = m.history
    ∧ (tickStep m (Poll.token s)).1.streaming = true
    ∧ (tickStep m (Poll.token s)).1.currentResponse = m.currentResponse ++ s
    ∧ (tickStep m (Poll.token s)).1.renderThrottle
        = adjustThrottle (m.currentResponse ++ s).utf8ByteSize := by
  simp [tickStep, h, cleanupLongResponse, adjustOptimizationParams]

theorem runTokens_spec (ts : List String) :
    ∀ m : Model, m.streaming = true →
      (runTokens m ts).streaming = true
      ∧ (runTokens m ts).history = m.history
      ∧ (runTokens m ts).currentResponse = ts.foldl (· ++ ·) m.currentResponse := by
  induction ts with
  | nil => intro m h; exact ⟨h, rfl, rfl⟩
  | cons t ts ih =>
    intro m h
    obtain ⟨h1, h2, h3, -⟩ := tickStep_token_fields m t h
    obtain ⟨g1, g2, g3⟩ := ih ((tickStep m (Poll.token t)).1) h2
    have hr : runTokens m (t :: ts) = runTokens ((tickStep m (Poll.token t)).1) ts := rfl
    rw [hr]
    refine ⟨g1, by rw [g2, h1], ?_⟩
    rw [g3, h3]
    rfl

theorem enterStep_accept (m : Model) (input : String)
    (h1 : m.streaming = false) (h2 : input ≠ "") :
    (enterStep m input).1.history = m.history ++ [userMessage input]
    ∧ (enterStep m input).1.streaming = true
    ∧ (enterStep m input).1.currentResponse = ""
    ∧ (enterStep m input).2 = [Effect.flushAttempt, Effect.startStream input] := by
  simp [enterStep, h1, h2]

theorem tickStep_closed_spec (m : Model) (h : m.streaming = true) :
    (tickStep m Poll.closed).1.history = m.history ++ [assistantMessage m.currentResponse]
    ∧ (tickStep m Poll.closed).1.streaming = false
    ∧ (tickStep m Poll.closed).1.lastRenderTime = 0
    ∧ (tickStep m Poll.closed).2 =
        [Effect.flushForced,
         Effect.persistConversation (m.history ++ [assistantMessage m.currentResponse])] := by
  simp [tickStep, h, resetOptimizationParams]

/-- An idle model with empty session state, as produced at first startup. -/
def mEmpty : Model :=
  { history := [], streaming := false, currentResponse := "", stats := 0,
    maxHistoryDisplay := 10, maxResponseLength := 0, renderBuffer := 5,
    renderThrottle := 100, lastRenderTime := 0 }

/-- A model in the middle of a stream. -/
def mStream : Model := { mEmpty with streaming := true, currentResponse := "abc" }

/-! ## C6 -/

/-- C6: an enter-key submission received while streaming, and an empty
submission received while idle, leave the model (history, pending response,
stats) exactly unchanged, start no stream and queue nothing. -/
theorem C6_rejected_inputs (m : Model) (input : String) :
    (m.streaming = true → enterStep m input = (m, []))
    ∧ (input = "" → enterStep m input = (m, [])) := by
  constructor
  · intro h; simp [enterStep, h]
  · intro h
    subst h
    cases hs : m.streaming <;> simp [enterStep, hs]

/-- C6 witness: the rejections at concrete inputs. -/
theorem C6_witness :
    enterStep mStream "hi" = (mStream, []) ∧ enterStep mEmpty "" = (mEmpty, []) :=
  ⟨(C6_rejected_inputs mStream "hi").1 rfl, (C6_rejected_inputs mEmpty "").2 rfl⟩

/-! ## C5 -/

/-- C5 counterexample: at an accumulated response length of exactly 5000 the
code keeps the 100 ms throttle; the claimed step function ("100ms when the
length is under 5,000 … 150ms when it is between 5,000 and 10,000") puts
5000 in the 150 ms band. -/
theorem C5_counterexample :
    adjustThrottle 5000 = 100 ∧ adjustThrottle 5000 ≠ 150 := by
  constructor <;> decide

theorem adjustThrottle_low {len : Nat} (h : len ≤ 5000) : adjustThrottle len = 100 := by
  unfold adjustThrottle
  rw [if_neg (by omega), if_neg (by omega)]

theorem adjustThrottle_mid {len : Nat} (h1 : 5000 < len) (h2 : len ≤ 10000) :
    adjustThrottle len = 150 := by
  unfold adjustThrottle
  rw [if_neg (by omega), if_pos (by omega)]

theorem adjustThrottle_high {len : Nat} (h : 10000 < len) : adjustThrottle len = 200 := by
  unfold adjustThrottle
  rw [if_pos (by omega)]

theorem adjustThrottle_mono {len len' : Nat} (h : len ≤ len') :
    adjustThrottle len ≤ adjustThrottle len' := by
  unfold adjustThrottle
  repeat' split
  all_goals omega

/-- C5 (amended): after a fragment is appended the throttle interval is
`adjustThrottle` of the accumulated response length — 100 ms up to and
including 5,000, 150 ms above 5,000 up to and including 10,000, 200 ms above
10,000 — a monotone step function; and the accumulated response is never
truncated (the fragment is appended in full and `cleanupLongResponse` is a
no-op). -/
theorem C5_throttle_step (m : Model) (s : String) (len len' : Nat)
    (hs : m.streaming = true) :
    (tickStep m (Poll.token s)).1.renderThrottle
        = adjustThrottle (m.currentResponse ++ s).utf8ByteSize
    ∧ (tickStep m (Poll.token s)).1.currentResponse = m.currentResponse ++ s
    ∧ (len ≤ 5000 → adjustThrottle len = 100)
    ∧ (5000 < len → len ≤ 10000 → adjustThrottle len = 150)
    ∧ (10000 < len → adjustThrottle len = 200)
    ∧ (len ≤ len' → adjustThrottle len ≤ adjustThrottle len')
    ∧ cleanupLongResponse m = m := by
  obtain ⟨-, -, h3, h4⟩ := tickStep_token_fields m s hs
  exact ⟨h4, h3, adjustThrottle_low, adjustThrottle_mid, adjustThrottle_high,
    adjustThrottle_mono, rfl⟩

/-- C5 witness: the throttle characterisation applied at a concrete streaming
model and concrete lengths. -/
theorem C5_witness :
    (tickStep mStream (Poll.token "d")).1.renderThrottle
        = adjustThrottle (mStream.currentResponse ++ "d").utf8ByteSize
    ∧ (tickStep mStream (Poll.token "d")).1.currentResponse
        = mStream.currentResponse ++ "d"
    ∧ (4000 ≤ 5000 → adjustThrottle 4000 = 100)
    ∧ (5000 < 4000 → 4000 ≤ 10000 → adjustThrottle 4000 = 150)
    ∧ (10000 < 4000 → adjustThrottle 4000 = 200)
    ∧ (4000 ≤ 7000 → adjustThrottle 4000 ≤ adjustThrottle 7000)
    ∧ cleanupLongResponse mStream = mStream :=
  C5_throttle_step mStream "d" 4000 7000 rfl

/-! ## C2 -/

/-- C2 counterexample: a stream that delivers a single chunk carrying only a
tool-call marker and no text delivers zero text fragments, yet the counter
still increments — the post-stream value differs from pre + K. -/
theorem C2_counterexample :
    textFragmentCount [some ⟨"assistant", "", [⟨"get_lexicon", ""⟩]⟩] = 0
    ∧ (receiveLoop 0 [some ⟨"assistant", "", [⟨"get_lexicon", ""⟩]⟩]).1
        ≠ 0 + (textFragmentCount [some ⟨"assistant", "", [⟨"get_lexicon", ""⟩]⟩] : Int) := by
  constructor <;> decide

/-- C2 (amended): the receive loop increments `stats.total_tokens` by exactly
1 per non-empty chunk received — whether the chunk carries text, tool-call
markers, both, or neither — so after a stream of `chunkCount chunks` non-empty
chunks the counter equals its pre-stream value plus that count; the pushed
fragments are exactly the per-chunk fragments, in order. -/
theorem C2_token_accounting (pre : Int) (chunks : List (Option Message)) :
    (receiveLoop pre chunks).1 = pre + (chunkCount chunks : Int)
    ∧ (receiveLoop pre chunks).2
        = (chunks.filterMap id).foldr (fun m acc => emitFragments m ++ acc) [] := by
  induction chunks generalizing pre with
  | nil => simp [receiveLoop, chunkCount]
  | cons c rest ih =>
    cases c with
    | none =>
      have h := ih pre
      simpa [receiveLoop, chunkCount, List.countP_cons] using h
    | some msg =>
      have h := ih (pre + 1)
      constructor
      · simp only [receiveLoop, h.1, chunkCount, List.countP_cons]
        simp
        omega
      · simp [receiveLoop, h.2]

/-! ## C9 -/

/-- The file system of a fresh environment: the per-user application directory
`$HOME/l2` (and everything below it) does not exist yet, and the process runs
from an unrelated working directory. -/
def fsFresh : FS :=
  { home := ["home"], cwd := ["tmp"], dirs := [[], ["home"], ["tmp"]], files := [] }

/-- C9: evaluation at the failing input. In a fresh environment every record
write fails with a missing parent directory, because the `os.MkdirAll` calls
create the wrong directory: `WriteConversation` mkdirs `./conversations` under
the working directory (`filepath.Dir` of the *relative* `pathMap` constant),
`WriteStats` mkdirs `"."`, and `WriteDataFile` mkdirs `$HOME/l2` instead of
`$HOME/l2/data` — so none of them creates the parent of its write target. -/
theorem C9_mkdirAll_wrong_directory :
    writeConversation fsFresh [] = none
    ∧ writeStats fsFresh 0 = none
    ∧ writeDataFile fsFresh "lexicon.json" (Bytes.raw "x") = none := by
  refine ⟨rfl, rfl, rfl⟩

/-! ## C1 -/

/-- C1: for a stream accepted while idle (non-empty input, not streaming),
once the token channel closes the session has appended exactly one assistant
turn carrying the accumulated pending response (even when it is empty), the
step performs one forced render flush bypassing the throttle check followed by
a history persist, and the history has grown by exactly 2 over its
pre-submission length. -/
theorem C1_stream_completion (m : Model) (input : String) (ts : List String)
    (hidle : m.streaming = false) (hne : input ≠ "") :
    ((tickStep (runTokens (enterStep m input).1 ts) Poll.closed).1.history
        = m.history ++ [userMessage input, assistantMessage (String.join ts)])
    ∧ ((tickStep (runTokens (enterStep m input).1 ts) Poll.closed).2
        = [Effect.flushForced, Effect.persistConversation
            (m.history ++ [userMessage input, assistantMessage (String.join ts)])])
    ∧ ((tickStep (runTokens (enterStep m input).1 ts) Poll.closed).1.streaming = false)
    ∧ ((tickStep (runTokens (enterStep m input).1 ts) Poll.closed).1.history.length
        = m.history.length + 2) := by
  obtain ⟨he1, he2, he3, -⟩ := enterStep_accept m input hidle hne
  obtain ⟨hr1, hr2, hr3⟩ := runTokens_spec ts _ he2
  obtain ⟨hc1, hc2, -, hc4⟩ := tickStep_closed_spec _ hr1
  have hresp : (runTokens (enterStep m input).1 ts).currentResponse = String.join ts := by
    rw [hr3, he3]; rfl
  have hhist : (tickStep (runTokens (enterStep m input).1 ts) Poll.closed).1.history
      = m.history ++ [userMessage input, assistantMessage (String.join ts)] := by
    rw [hc1, hresp, hr2, he1, List.append_assoc]
    rfl
  refine ⟨hhist, ?_, hc2, by rw [hhist]; simp⟩
  rw [hc4, hresp, hr2, he1, List.append_assoc]
  rfl

/-- C1 witness: a submission whose stream ends without delivering any token
still commits one (empty) assistant turn, and history grows by exactly 2. -/
theorem C1_witness :
    ((tickStep (runTokens (enterStep mEmpty "Hello").1 []) Poll.closed).1.history
        = mEmpty.history ++ [userMessage "Hello", assistantMessage (String.join [])])
    ∧ ((tickStep (runTokens (enterStep mEmpty "Hello").1 []) Poll.closed).2
        = [Effect.flushForced, Effect.persistConversation
            (mEmpty.history ++ [userMessage "Hello", assistantMessage (String.join [])])])
    ∧ ((tickStep (runTokens (enterStep mEmpty "Hello").1 []) Poll.closed).1.streaming = false)
    ∧ ((tickStep (runTokens (enterStep mEmpty "Hello").1 []) Poll.closed).1.history.length
        = mEmpty.history.length + 2) :=
  C1_stream_completion mEmpty "Hello" [] rfl (by decide)

/-! ## C3 -/

/-- An 11-user-turn history, with pairwise distinct contents. -/
def hist11 : List Message :=
  [userMessage "m0", userMessage "m1", userMessage "m2", userMessage "m3",
   userMessage "m4", userMessage "m5", userMessage "m6", userMessage "m7",
   userMessage "m8", userMessage "m9", userMessage "m10"]

/-- C3 counterexample: with 11 user/assistant turns and a failed summarization
call, condensation does not produce the transcript of the last 5 turns of
history (`m6`…`m10`): the last turn's content `m10` does not occur in the
produced context at all; what is produced is the transcript of turns
`m5`…`m9` — the last 5 of the turns *excluding the most recent one*. -/
theorem C3_counterexample :
    createCondensedHistory none hist11
      ≠ [systemMessage ("CONTEXT: " ++ formatExistingContext (hist11.drop 6))]
    ∧ listHasInside "m10".toList
        ("CONTEXT: " ++ formatExistingContext ((hist11.take 10).drop 5)).toList = false
    ∧ createCondensedHistory none hist11
      = [systemMessage ("CONTEXT: " ++ formatExistingContext ((hist11.take 10).drop 5))] := by
  refine ⟨by decide, by decide, by decide⟩

/-- C3 (amended): with more than 10 user/assistant turns and a failed
summarization call, condensation emits the verbatim transcript of exactly the
last 5 of the user/assistant turns *excluding the most recent one* (the code
passes `userMessages[:n-1]` to summarization and the fallback takes the last 5
of that slice). -/
theorem C3_summary_fallback (history : List Message)
    (h : 10 < (history.filter isUserOrAssistant).length) :
    createCondensedHistory none history
      = [systemMessage ("CONTEXT: " ++ formatExistingContext
          (((history.filter isUserOrAssistant).take
              ((history.filter isUserOrAssistant).length - 1)).drop
            ((history.filter isUserOrAssistant).length - 6)))] := by
  set ums := history.filter isUserOrAssistant with hums
  have hlen : (ums.take (ums.length - 1)).length = ums.length - 1 := by
    rw [List.length_take]; omega
  have hsub : ums.length - 1 - 5 = ums.length - 6 := by omega
  simp only [createCondensedHistory, generateContextSummary, if_pos h, ← hums]
  rw [hlen, hsub]

/-- C3 witness: the amended statement at the concrete 11-turn history. -/
theorem C3_witness :
    createCondensedHistory none hist11
      = [systemMessage ("CONTEXT: " ++ formatExistingContext
          (((hist11.filter isUserOrAssistant).take
              ((hist11.filter isUserOrAssistant).length - 1)).drop
            ((hist11.filter isUserOrAssistant).length - 6)))] :=
  C3_summary_fallback hist11 (by decide)

/-! ## C4 -/

/-- `containsInOrder body subs`: each string of `subs` occurs in `body`, in
order, at pairwise disjoint positions (each occurrence strictly after the end
of the previous one). This is the formalisation of "contains every one of
those turns' content strings as substrings, in original order". -/
def containsInOrder : String → List String → Prop
  | _, [] => True
  | body, s :: rest => ∃ pre post, body = pre ++ s ++ post ∧ containsInOrder post rest

theorem containsInOrder_prepend (a b : String) (l : List String)
    (h : containsInOrder b l) : containsInOrder (a ++ b) l := by
  cases l with
  | nil => trivial
  | cons s rest =>
    obtain ⟨pre, post, heq, hrest⟩ := h
    exact ⟨a ++ pre, post, by rw [heq, ← String.append_assoc, ← String.append_assoc], hrest⟩

theorem formatBlocks_containsInOrder (msgs : List Message) :
    containsInOrder (formatBlocks msgs) (msgs.map (fun m => formatContent m.content)) := by
  induction msgs with
  | nil => trivial
  | cons m rest ih =>
    refine ⟨"**" ++ formatRole m ++ ":** ", "\n\n" ++ formatBlocks rest, ?_, ?_⟩
    · simp only [formatBlocks, formatBlock, String.append_assoc]
    · exact containsInOrder_prepend _ _ _ ih

/-- C4 (amended): with between 1 and 10 user/assistant turns (markers or
not), condensation emits one synthetic system-role message prefixed
`CONTEXT: ` whose body is the role-labeled transcript of those turns,
containing each turn's *formatted* content in original history order; the
formatted content is the turn's content verbatim whenever it does not contain
the `[Tool Call:` marker, and is the content with `[Tool Call:` and every `]`
wrapped in `**` (hence not verbatim — see the counterexample) whenever it
does. -/
theorem C4_condensed_transcript (summary : Option String) (history : List Message)
    (h1 : (history.filter isUserOrAssistant).length ≤ 10)
    (h2 : history.filter isUserOrAssistant ≠ []) :
    createCondensedHistory summary history
      = [systemMessage ("CONTEXT: "
          ++ formatExistingContext (history.filter isUserOrAssistant))]
    ∧ containsInOrder
        ("CONTEXT: " ++ formatExistingContext (history.filter isUserOrAssistant))
        ((history.filter isUserOrAssistant).map (fun m => formatContent m.content))
    ∧ (∀ m ∈ history.filter isUserOrAssistant, containsToolCall m.content = false →
        formatContent m.content = m.content)
    ∧ (∀ m ∈ history.filter isUserOrAssistant, containsToolCall m.content = true →
        formatContent m.content
          = replaceAll (replaceAll m.content "[Tool Call:" "**[Tool Call:") "]" "]**") := by
  set ums := history.filter isUserOrAssistant with hums
  have hpos : 0 < ums.length := List.length_pos.mpr h2
  have hnot : ¬ ums.length > 10 := by omega
  have hfmt : formatExistingContext ums
      = "Previous conversation includes:\n\n" ++ formatBlocks ums := by
    simp only [formatExistingContext, if_neg h2, if_neg hnot]
  refine ⟨?_, ?_, ?_, ?_⟩
  · simp only [createCondensedHistory, ← hums, if_neg hnot, if_pos hpos]
  · rw [hfmt]
    exact containsInOrder_prepend _ _ _
      (containsInOrder_prepend _ _ _ (formatBlocks_containsInOrder ums))
  · intro m hm hc
    simp [formatContent, hc]
  · intro m hm hc
    simp [formatContent, hc]

/-- C4 witness: the transcript property at a concrete mixed history — one
marker-free turn (whose content is therefore included verbatim) followed by
one marker-bearing turn (included `**`-wrapped). -/
theorem C4_witness :
    createCondensedHistory none [userMessage "hello", assistantMessage "[Tool Call: a] b"]
      = [systemMessage ("CONTEXT: " ++ formatExistingContext
          (([userMessage "hello", assistantMessage "[Tool Call: a] b"]).filter
            isUserOrAssistant))]
    ∧ containsInOrder
        ("CONTEXT: " ++ formatExistingContext
          (([userMessage "hello", assistantMessage "[Tool Call: a] b"]).filter
            isUserOrAssistant))
        ((([userMessage "hello", assistantMessage "[Tool Call: a] b"]).filter
            isUserOrAssistant).map (fun m => formatContent m.content))
    ∧ (∀ m ∈ ([userMessage "hello", assistantMessage "[Tool Call: a] b"]).filter
          isUserOrAssistant, containsToolCall m.content = false →
        formatContent m.content = m.content)
    ∧ (∀ m ∈ ([userMessage "hello", assistantMessage "[Tool Call: a] b"]).filter
          isUserOrAssistant, containsToolCall m.content = true →
        formatContent m.content
          = replaceAll (replaceAll m.content "[Tool Call:" "**[Tool Call:") "]" "]**") :=
  C4_condensed_transcript none [userMessage "hello", assistantMessage "[Tool Call: a] b"]
    (by decide) (by decide)

theorem strToList_append (a b : String) : (a ++ b).toList = a.toList ++ b.toList := by
  simp [String.toList]

theorem listHasInside_nil_pat (l : List Char) : listHasInside [] l = true := by
  cases l <;> simp [listHasInside]

theorem listHasInside_split (pat l r : List Char) :
    listHasInside pat (l ++ (pat ++ r)) = true := by
  induction l with
  | nil =>
    cases pat with
    | nil => simpa using listHasInside_nil_pat r
    | cons p ps =>
      simp only [List.nil_append, List.cons_append, listHasInside, Bool.or_eq_true]
      left
      rw [List.isPrefixOf_iff_prefix]
      exact List.prefix_append (p :: ps) r
  | cons c l ih =>
    simp [listHasInside, ih]

/-- A string split witnesses Boolean containment of the middle part. -/
theorem containsInOrder_single (b s : String) (h : containsInOrder b [s]) :
    listHasInside s.toList b.toList = true := by
  obtain ⟨pre, post, heq, -⟩ := h
  rw [heq, strToList_append, strToList_append, List.append_assoc]
  exact listHasInside_split _ _ _

/-- C4 counterexample: a single user turn whose content is
`"[Tool Call: a] b"` (1 ≤ 1 ≤ 10 turns). The emitted context message's body
brackets the marker (`**[Tool Call: a]** b`), so the turn's content string is
not (verbatim) a substring of the body. -/
theorem C4_counterexample :
    createCondensedHistory none [userMessage "[Tool Call: a] b"]
      = [systemMessage ("CONTEXT: "
          ++ formatExistingContext [userMessage "[Tool Call: a] b"])]
    ∧ ¬ containsInOrder
        ("CONTEXT: " ++ formatExistingContext [userMessage "[Tool Call: a] b"])
        (([userMessage "[Tool Call: a] b"]).map (fun m => m.content)) := by
  constructor
  · rfl
  · intro h
    have h1 : containsInOrder
        ("CONTEXT: " ++ formatExistingContext [userMessage "[Tool Call: a] b"])
        ["[Tool Call: a] b"] := h
    have h2 := containsInOrder_single _ _ h1
    exact absurd h2 (by decide)

/-! ## C7 -/

theorem writeFileOS_read (fs : FS) (p : FilePath') (b : Bytes) (fs' : FS)
    (hw : writeFileOS fs p b = some fs') :
    fs'.home = fs.home ∧ lookupFile fs'.files p = some b := by
  unfold writeFileOS at hw
  split at hw
  · cases hw
    exact ⟨rfl, by simp [lookupFile]⟩
  · cases hw

/-- C7: writing a history with `WriteConversation` and reading it back with
`ReadConversation` yields the same sequence of turns (role, content,
tool_calls), provided the write succeeded. -/
theorem C7_roundtrip (fs : FS) (h : List Message) (fs' : FS)
    (hw : writeConversation fs h = some fs') :
    readConversation fs' = some h := by
  have hex : ∃ fs₁ : FS, fs₁.home = fs.home ∧
      writeFileOS fs₁ (getPath fs₁ FileId.conversation)
        (Bytes.json (encodeConversation h)) = some fs' := by
    unfold writeConversation writeFileStorage at hw
    by_cases hc : checkFile fs FileId.conversation
    · exact ⟨fs, rfl, by simpa [hc] using hw⟩
    · exact ⟨mkdirAll fs (fs.cwd ++ dirOf (pathMapComponents FileId.conversation)),
        rfl, by simpa [hc] using hw⟩
  obtain ⟨fs₁, hhome, hw₁⟩ := hex
  obtain ⟨hhome', hlook⟩ := writeFileOS_read _ _ _ _ hw₁
  have hgp : getPath fs' FileId.conversation = getPath fs₁ FileId.conversation := by
    simp [getPath, hhome']
  unfold readConversation readFileStorage checkFile
  rw [hgp, hlook]
  simp [decodeConversation_encodeConversation]

/-- A file system in which the application directories already exist. -/
def fsReady : FS :=
  { home := ["home"], cwd := ["home"],
    dirs := [[], ["home"], ["home", "l2"], ["home", "l2", "conversations"],
             ["home", "l2", "data"]],
    files := [] }

/-- A sample history exercising roles, contents and tool calls. -/
def sampleHistory : List Message :=
  [userMessage "Hello",
   ⟨"assistant", "Hi there!", [⟨"add_lexicon_entry", "word=sun"⟩]⟩]

/-- C7 witness: the round trip at a concrete file system and history. -/
theorem C7_witness :
    readConversation ((writeConversation fsReady sampleHistory).getD fsReady)
      = some sampleHistory :=
  C7_roundtrip fsReady sampleHistory _ rfl

/-! ## C8 -/

/-- C8: startup is resilient — an absent or unreadable conversation record
yields an empty initial history, and an absent or unreadable stats record
yields an initial `total_tokens` of 0. -/
theorem C8_resilient_startup (fs : FS) :
    ((checkFile fs FileId.conversation = false ∨ readConversation fs = none) →
        (newModel fs).history = [])
    ∧ (readStats fs = none → (newModel fs).stats = 0) := by
  constructor
  · intro h
    show initHistory fs = []
    unfold initHistory
    rcases h with h | h
    · simp [h]
    · simp [h]
  · intro h
    show initStats fs = 0
    unfold initStats
    simp [h]

/-- A file system whose conversation record holds malformed JSON and whose
stats record is absent. -/
def fsCorrupt : FS :=
  { home := ["home"], cwd := ["home"],
    dirs := [[], ["home"], ["home", "l2"], ["home", "l2", "conversations"]],
    files := [(["home", "l2", "conversations", "conversation.json"],
               Bytes.raw "not json at all")] }

/-- C8 witness: startup on the corrupted store. -/
theorem C8_witness :
    (newModel fsCorrupt).history = [] ∧ (newModel fsCorrupt).stats = 0 :=
  ⟨(C8_resilient_startup fsCorrupt).1 (Or.inr rfl),
   (C8_resilient_startup fsCorrupt).2 rfl⟩

/-! ## C10: the lexicon tool (`AddLexiconEntry`). -/

structure LexiconEntry where
  word : String
  definition : String
  partOfSpeech : String
  etymology : String
deriving DecidableEq, Repr

structure LexiconResult where
  success : Bool
  message : String
  entries : List LexiconEntry
deriving DecidableEq, Repr

def encodeLexiconEntry (e : LexiconEntry) : Json :=
  Json.obj [("word", Json.str e.word), ("definition", Json.str e.definition),
    ("part_of_speech", Json.str e.partOfSpeech), ("etymology", Json.str e.etymology)]

def decodeLexiconEntry : Json → Option LexiconEntry
  | Json.obj fields =>
    match decodeStrField fields "word", decodeStrField fields "definition",
          decodeStrField fields "part_of_speech", decodeStrField fields "etymology" with
    | some w, some d, some p, some e => some ⟨w, d, p, e⟩
    | _, _, _, _ => none
  | _ => none

def decodeLexicon : Json → Option (List LexiconEntry)
  | Json.arr xs => decodeAll decodeLexiconEntry xs
  | Json.null => some []
  | _ => none

def parseLexicon : Bytes → Option (List LexiconEntry)
  | Bytes.json j => decodeLexicon j
  | Bytes.raw _ => none

/-- The entry list `AddLexiconEntry` starts from: a read failure, or an
unmarshal failure (logged), leaves the initial empty slice. -/
def storedLexicon (fs : FS) : List LexiconEntry :=
  match readDataFile fs "lexicon.json" with
  | some b => (parseLexicon b).getD []
  | none => []

/-- The duplicate check of `AddLexiconEntry`. -/
def wordPresent (fs : FS) (w : String) : Bool :=
  (storedLexicon fs).any (fun e => e.word == w)

/-- `AddLexiconEntry`. (The save-failure message carries the OS error text in
the source; the model keeps only its fixed stem.) -/
def addLexiconEntry (fs : FS) (entry : LexiconEntry) : LexiconResult × FS :=
  if entry.word = "" then
    ({ success := false, message := "Word is required", entries := [] }, fs)
  else if entry.definition = "" then
    ({ success := false, message := "Definition is required", entries := [] }, fs)
  else if (storedLexicon fs).any (fun e => e.word == entry.word) then
    ({ success := false, message := "Word already exists in lexicon", entries := [] }, fs)
  else
    match writeDataFile fs "lexicon.json"
        (Bytes.json (Json.arr ((storedLexicon fs ++ [entry]).map encodeLexiconEntry))) with
    | some fs' =>
      ({ success := true, message := "Lexicon entry added successfully",
         entries := [entry] }, fs')
    | none =>
      ({ success := false, message := "Failed to save lexicon", entries := [] }, fs)

theorem decodeAll_map {α : Type} (f : Json → Option α) (g : α → Json)
    (hfg : ∀ x, f (g x) = some x) (l : List α) :
    decodeAll f (l.map g) = some l := by
  induction l with
  | nil => rfl
  | cons x xs ih => simp [decodeAll, hfg, ih]

theorem decodeLexiconEntry_encodeLexiconEntry (e : LexiconEntry) :
    decodeLexiconEntry (encodeLexiconEntry e) = some e := by
  obtain ⟨w, d, p, t⟩ := e
  simp [encodeLexiconEntry, decodeLexiconEntry, decodeStrField, getField]

theorem writeDataFile_read (fs : FS) (name : String) (b : Bytes) (fs' : FS)
    (hw : writeDataFile fs name b = some fs') :
    readDataFile fs' name = some b := by
  unfold writeDataFile at hw
  obtain ⟨hhome, hlook⟩ := writeFileOS_read _ _ _ _ hw
  unfold readDataFile
  have hgp : getPath fs' FileId.data = getPath fs FileId.data := by
    simp [getPath, hhome, mkdirAll]
  rw [hgp]
  exact hlook

/-- C10 (amended): for a call with non-empty word and non-empty definition
whose word already occurs in the stored lexicon, `AddLexiconEntry` returns
`Success=false` with message `"Word already exists in lexicon"` and leaves the
file system untouched; the file system is changed only when the word and
definition are non-empty and the word is not already present; and a
successful call appends exactly the new entry to the stored lexicon. (For an
empty word or definition the call is rejected earlier, with
`"Word is required"` / `"Definition is required"` — see the counterexample.) -/
theorem C10_duplicate_guard (fs : FS) (e : LexiconEntry) :
    (e.word ≠ "" → e.definition ≠ "" → wordPresent fs e.word = true →
      addLexiconEntry fs e
        = ({ success := false, message := "Word already exists in lexicon",
             entries := [] }, fs))
    ∧ ((addLexiconEntry fs e).2 ≠ fs →
        e.word ≠ "" ∧ e.definition ≠ "" ∧ wordPresent fs e.word = false)
    ∧ ((addLexiconEntry fs e).1.success = true →
        storedLexicon (addLexiconEntry fs e).2 = storedLexicon fs ++ [e]) := by
  refine ⟨?_, ?_, ?_⟩
  · intro hw hd hp
    unfold addLexiconEntry
    rw [if_neg hw, if_neg hd, if_pos]
    exact hp
  · intro hne
    unfold addLexiconEntry at hne
    by_cases hw : e.word = ""
    · rw [if_pos hw] at hne; exact absurd rfl hne
    by_cases hd : e.definition = ""
    · rw [if_neg hw, if_pos hd] at hne; exact absurd rfl hne
    by_cases hp : (storedLexicon fs).any (fun x => x.word == e.word)
    · rw [if_neg hw, if_neg hd, if_pos hp] at hne; exact absurd rfl hne
    refine ⟨hw, hd, ?_⟩
    show (storedLexicon fs).any (fun x => x.word == e.word) = false
    exact Bool.not_eq_true _ ▸ (by simpa using hp)
  · intro hsucc
    unfold addLexiconEntry at hsucc ⊢
    by_cases hw : e.word = ""
    · rw [if_pos hw] at hsucc; cases hsucc
    by_cases hd : e.definition = ""
    · rw [if_neg hw, if_pos hd] at hsucc; cases hsucc
    by_cases hp : (storedLexicon fs).any (fun x => x.word == e.word)
    · rw [if_neg hw, if_neg hd, if_pos hp] at hsucc; cases hsucc
    rw [if_neg hw, if_neg hd, if_neg hp] at hsucc ⊢
    cases hwrite : writeDataFile fs "lexicon.json"
        (Bytes.json (Json.arr ((storedLexicon fs ++ [e]).map encodeLexiconEntry))) with
    | none =>
      rw [hwrite] at hsucc
      exact Bool.noConfusion hsucc
    | some fs' =>
      have hread := writeDataFile_read _ _ _ _ hwrite
      show storedLexicon fs' = storedLexicon fs ++ [e]
      generalize storedLexicon fs = old at hread ⊢
      have hdec : parseLexicon (Bytes.json (Json.arr ((old ++ [e]).map encodeLexiconEntry)))
          = some (old ++ [e]) :=
        decodeAll_map decodeLexiconEntry encodeLexiconEntry
          decodeLexiconEntry_encodeLexiconEntry (old ++ [e])
      unfold storedLexicon
      rw [hread]
      show (parseLexicon (Bytes.json (Json.arr ((old ++ [e]).map encodeLexiconEntry)))).getD []
          = old ++ [e]
      rw [hdec]
      rfl

/-- A file system whose stored lexicon already holds the word `sun`. -/
def fsLex : FS :=
  { home := ["home"], cwd := ["home"],
    dirs := [[], ["home"], ["home", "l2"], ["home", "l2", "data"]],
    files := [(["home", "l2", "data", "lexicon.json"],
               Bytes.json (Json.arr [encodeLexiconEntry ⟨"sun", "a star", "noun", ""⟩]))] }

/-- C10 witness: adding a duplicate of `sun` (with a non-empty definition) is
rejected with the duplicate message and leaves the store untouched. -/
theorem C10_witness :
    addLexiconEntry fsLex ⟨"sun", "other definition", "", ""⟩
      = ({ success := false, message := "Word already exists in lexicon",
           entries := [] }, fsLex) :=
  (C10_duplicate_guard fsLex ⟨"sun", "other definition", "", ""⟩).1
    (by decide) (by decide) (by decide)

/-- C10 counterexample: a call whose word (`sun`) already occurs in the stored
lexicon but whose definition is empty is rejected with
`"Definition is required"`, not `"Word already exists in lexicon"` — the
definition check runs before the duplicate check. -/
theorem C10_counterexample :
    wordPresent fsLex "sun" = true
    ∧ (addLexiconEntry fsLex ⟨"sun", "", "", ""⟩).1.message
        = "Definition is required"
    ∧ (addLexiconEntry fsLex ⟨"sun", "", "", ""⟩).1.message
        ≠ "Word already exists in lexicon" := by
  refine ⟨by decide, by decide, by decide⟩

end L2
